import Mathlib

/-!
Verification of the ALE mesh storage core excerpted in
src/src/dm/mesh/sieve/Mesh.hh (classes Bundle, Discretization,
BoundaryCondition, Mesh).

Modelling choices:
  - C doubles are modelled as exact rationals (ℚ); the source performs only
    field arithmetic (add, sub, mul, div) on them.
  - a C pointer read coords[i] from a Section restriction is modelled as a
    read from a list of rationals with default 0 (the source never checks
    bounds either);
  - std::map is modelled as an association list kept sorted by key, which is
    exactly the iteration order std::map guarantees;
  - a thrown ALE::Exception is modelled as an Except.error carrying a tag for
    the message;
  - the Section, Topology and NumberingFactory class templates are not part of
    the excerpt, so the few operations Mesh.hh invokes on them are modelled
    from the specification text (marked "Modelled from the spec" below) and
    the topology-derived data a routine reads (cell list of a height stratum,
    point depth, label stratum, coordinate restriction) is passed in as
    explicit model state.
-/

namespace MeshVerify

/-- Read entry i of a coordinate / value array, as the C code reads coords[i]. -/
def cAt (coords : List ℚ) (i : Nat) : ℚ := coords.getD i 0

/-! ### Mesh geometry: Mesh::computeTriangleGeometry (Mesh.hh lines 204-230) -/

/-- The Jacobian entry J[d*2+f] = 0.5*(coords[(f+1)*2+d] - coords[0*2+d]). -/
def triJ (c : List ℚ) (d f : Nat) : ℚ :=
  (1/2 : ℚ) * (cAt c ((f+1)*2+d) - cAt c (0*2+d))

/-- detJ = J[0]*J[3] - J[1]*J[2]. -/
def triDetJ (c : List ℚ) : ℚ :=
  triJ c 0 0 * triJ c 1 1 - triJ c 0 1 * triJ c 1 0

/-- invDet = 1.0/detJ, computed with no zero check (line 224). -/
def triInvDet (c : List ℚ) : ℚ := 1 / triDetJ c

/-- The inverse Jacobian entries invJ[0..3] (lines 225-228):
    invJ[0] = invDet*J[3], invJ[1] = -invDet*J[1],
    invJ[2] = -invDet*J[2], invJ[3] = invDet*J[0]. -/
def triInvJ (c : List ℚ) : Nat → ℚ
  | 0 => triInvDet c * triJ c 1 1
  | 1 => -(triInvDet c * triJ c 0 1)
  | 2 => -(triInvDet c * triJ c 1 0)
  | 3 => triInvDet c * triJ c 0 0
  | _ => 0

/-- The (v0, J, invJ, detJ) output record of computeTriangleGeometry. -/
def computeTriangleGeometry (c : List ℚ) : List ℚ × List ℚ × List ℚ × ℚ :=
  ([cAt c 0, cAt c 1],
   [triJ c 0 0, triJ c 0 1, triJ c 1 0, triJ c 1 1],
   [triInvJ c 0, triInvJ c 1, triInvJ c 2, triInvJ c 3],
   triDetJ c)

/-! ### Mesh geometry: Mesh::computeTetrahedronGeometry (lines 231-264) -/

/-- The Jacobian entry J[d*3+f] = 0.5*(coords[(f+1)*3+d] - coords[0*3+d]). -/
def tetJ (c : List ℚ) (d f : Nat) : ℚ :=
  (1/2 : ℚ) * (cAt c ((f+1)*3+d) - cAt c (0*3+d))

/-- detJ by cofactor expansion along the first row (lines 248-250). -/
def tetDetJ (c : List ℚ) : ℚ :=
  tetJ c 0 0 * (tetJ c 1 1 * tetJ c 2 2 - tetJ c 1 2 * tetJ c 2 1) +
  tetJ c 0 1 * (tetJ c 1 2 * tetJ c 2 0 - tetJ c 1 0 * tetJ c 2 2) +
  tetJ c 0 2 * (tetJ c 1 0 * tetJ c 2 1 - tetJ c 1 1 * tetJ c 2 0)

/-- invDet = 1.0/detJ, computed with no zero check (line 253). -/
def tetInvDet (c : List ℚ) : ℚ := 1 / tetDetJ c

/-- The inverse Jacobian entries invJ[0..8], transcribed literally from
    lines 254-262 (the source's exact cofactor expressions, including their
    sign convention). -/
def tetInvJ (c : List ℚ) : Nat → ℚ
  | 0 => tetInvDet c * (tetJ c 1 1 * tetJ c 2 2 - tetJ c 1 2 * tetJ c 2 1)
  | 1 => tetInvDet c * (tetJ c 1 2 * tetJ c 2 0 - tetJ c 1 0 * tetJ c 2 2)
  | 2 => tetInvDet c * (tetJ c 1 0 * tetJ c 2 1 - tetJ c 1 1 * tetJ c 2 0)
  | 3 => tetInvDet c * (tetJ c 0 1 * tetJ c 2 2 - tetJ c 0 2 * tetJ c 2 1)
  | 4 => tetInvDet c * (tetJ c 0 2 * tetJ c 2 0 - tetJ c 0 0 * tetJ c 2 2)
  | 5 => tetInvDet c * (tetJ c 0 0 * tetJ c 2 1 - tetJ c 0 1 * tetJ c 2 0)
  | 6 => tetInvDet c * (tetJ c 0 1 * tetJ c 1 2 - tetJ c 0 2 * tetJ c 1 1)
  | 7 => tetInvDet c * (tetJ c 0 2 * tetJ c 1 0 - tetJ c 0 0 * tetJ c 1 2)
  | 8 => tetInvDet c * (tetJ c 0 0 * tetJ c 1 1 - tetJ c 0 1 * tetJ c 1 0)
  | _ => 0

/-- The (v0, J, invJ, detJ) output record of computeTetrahedronGeometry. -/
def computeTetrahedronGeometry (c : List ℚ) : List ℚ × List ℚ × List ℚ × ℚ :=
  ([cAt c 0, cAt c 1, cAt c 2],
   [tetJ c 0 0, tetJ c 0 1, tetJ c 0 2,
    tetJ c 1 0, tetJ c 1 1, tetJ c 1 2,
    tetJ c 2 0, tetJ c 2 1, tetJ c 2 2],
   [tetInvJ c 0, tetInvJ c 1, tetInvJ c 2,
    tetInvJ c 3, tetInvJ c 4, tetInvJ c 5,
    tetInvJ c 6, tetInvJ c 7, tetInvJ c 8],
   tetDetJ c)

/-! ### Point location (Mesh.hh lines 265-334) -/

/-- The exceptions thrown by the geometry and location routines. -/
inductive MeshError where
  /-- "Could not locate point" (lines 305, 324). -/
  | pointOutsideDomain
  /-- "Unsupport dimension for element geometry computation" (line 271). -/
  | unsupportedGeometryDimension
  /-- "No point location for mesh dimension" (line 332). -/
  | unsupportedLocationDimension
  deriving DecidableEq, Repr

/-- The state a Mesh's geometry routines read: the spatial dimension _dim, the
    cells of heightStratum(patch, 0) in iteration order, and the "coordinates"
    Section restriction of each cell (vertex coordinates in arrow order). -/
structure LocMesh where
  dim : Nat
  cells : List Int
  coords : Int → List ℚ

/-- Mesh::computeElementGeometry (lines 265-273): dispatch on _dim, throwing
    for any dimension other than 2 and 3. -/
def computeElementGeometry (m : LocMesh) (e : Int) :
    Except MeshError (List ℚ × List ℚ × List ℚ × ℚ) :=
  if m.dim = 2 then .ok (computeTriangleGeometry (m.coords e))
  else if m.dim = 3 then .ok (computeTetrahedronGeometry (m.coords e))
  else .error .unsupportedGeometryDimension

/-- The reference coordinate xi of locatePoint_2D (line 298), from the cell's
    inverse Jacobian and origin vertex. -/
def triXi (c : List ℚ) (pt : List ℚ) : ℚ :=
  triInvJ c 0 * (cAt pt 0 - cAt c 0) + triInvJ c 1 * (cAt pt 1 - cAt c 1)

/-- The reference coordinate eta of locatePoint_2D (line 299). -/
def triEta (c : List ℚ) (pt : List ℚ) : ℚ :=
  triInvJ c 2 * (cAt pt 0 - cAt c 0) + triInvJ c 3 * (cAt pt 1 - cAt c 1)

/-- The acceptance test of locatePoint_2D (line 301): xi >= 0, eta >= 0 and
    xi + eta <= 1. -/
def inRefTriangle (c : List ℚ) (pt : List ℚ) : Prop :=
  0 ≤ triXi c pt ∧ 0 ≤ triEta c pt ∧ triXi c pt + triEta c pt ≤ 1

instance (c pt : List ℚ) : Decidable (inRefTriangle c pt) := by
  unfold inRefTriangle; infer_instance

/-- The reference coordinate xi of locatePoint_3D (line 316). -/
def tetXi (c : List ℚ) (pt : List ℚ) : ℚ :=
  tetInvJ c 0 * (cAt pt 0 - cAt c 0) + tetInvJ c 1 * (cAt pt 1 - cAt c 1) +
    tetInvJ c 2 * (cAt pt 2 - cAt c 2)

/-- The reference coordinate eta of locatePoint_3D (line 317). -/
def tetEta (c : List ℚ) (pt : List ℚ) : ℚ :=
  tetInvJ c 3 * (cAt pt 0 - cAt c 0) + tetInvJ c 4 * (cAt pt 1 - cAt c 1) +
    tetInvJ c 5 * (cAt pt 2 - cAt c 2)

/-- The reference coordinate zeta of locatePoint_3D (line 318). -/
def tetZeta (c : List ℚ) (pt : List ℚ) : ℚ :=
  tetInvJ c 6 * (cAt pt 0 - cAt c 0) + tetInvJ c 7 * (cAt pt 1 - cAt c 1) +
    tetInvJ c 8 * (cAt pt 2 - cAt c 2)

/-- The acceptance test of locatePoint_3D (line 320). -/
def inRefTetrahedron (c : List ℚ) (pt : List ℚ) : Prop :=
  0 ≤ tetXi c pt ∧ 0 ≤ tetEta c pt ∧ 0 ≤ tetZeta c pt ∧
    tetXi c pt + tetEta c pt + tetZeta c pt ≤ 1

instance (c pt : List ℚ) : Decidable (inRefTetrahedron c pt) := by
  unfold inRefTetrahedron; infer_instance

/-- The cell loop of locatePoint_2D (lines 296-305): scan the height-0 cells
    in order, return the first cell passing the acceptance test, throw
    "Could not locate point" when the scan falls off the end. -/
def locateLoop2D (m : LocMesh) (pt : List ℚ) : List Int → Except MeshError Int
  | [] => .error .pointOutsideDomain
  | c :: cs =>
    if inRefTriangle (m.coords c) pt then .ok c else locateLoop2D m pt cs

/-- The cell loop of locatePoint_3D (lines 314-324). -/
def locateLoop3D (m : LocMesh) (pt : List ℚ) : List Int → Except MeshError Int
  | [] => .error .pointOutsideDomain
  | c :: cs =>
    if inRefTetrahedron (m.coords c) pt then .ok c else locateLoop3D m pt cs

/-- Mesh::locatePoint_2D (lines 290-306). -/
def locatePoint_2D (m : LocMesh) (pt : List ℚ) : Except MeshError Int :=
  locateLoop2D m pt m.cells

/-- Mesh::locatePoint_3D (lines 308-325). -/
def locatePoint_3D (m : LocMesh) (pt : List ℚ) : Except MeshError Int :=
  locateLoop3D m pt m.cells

/-- Mesh::locatePoint (lines 326-334): dispatch on _dim, throwing for any
    dimension other than 2 and 3. -/
def locatePoint (m : LocMesh) (pt : List ℚ) : Except MeshError Int :=
  if m.dim = 2 then locatePoint_2D m pt
  else if m.dim = 3 then locatePoint_3D m pt
  else .error .unsupportedLocationDimension

/-- The single unit right triangle mesh of the spec's test property: one cell
    (point 42) whose "coordinates" restriction lists the vertices (0,0), (1,0),
    (0,1) in arrow order. -/
def unitTriangleMesh : LocMesh :=
  { dim := 2, cells := [42], coords := fun _ => [0, 0, 1, 0, 0, 1] }

/-! ### Section registries (Bundle, Mesh.hh lines 27-112) -/

/-- One of Bundle's three per-name section registries (a std::map from name to
    a reference-counted section object).  Distinct section objects are
    modelled by distinct numeric identities handed out by a counter. -/
structure SectionReg where
  entries : List (String × Nat)
  nextId : Nat
  deriving DecidableEq, Repr

/-- std::map::find on a registry. -/
def regLookup (name : String) : List (String × Nat) → Option Nat
  | [] => none
  | (n, i) :: rest => if n = name then some i else regLookup name rest

/-- Bundle::hasRealSection / hasIntSection / hasPairSection (lines 44-46, 67-69,
    90-92): find(name) != end(). -/
def hasSection (reg : SectionReg) (name : String) : Bool :=
  (regLookup name reg.entries).isSome

/-- Bundle::getRealSection / getIntSection / getPairSection (lines 47-55, 70-78,
    93-101): if the name is absent, construct a new section and store it under
    the name; then return the map entry for the name. -/
def getSection (reg : SectionReg) (name : String) : Nat × SectionReg :=
  match regLookup name reg.entries with
  | some i => (i, reg)
  | none => (reg.nextId, ⟨(name, reg.nextId) :: reg.entries, reg.nextId + 1⟩)

/-- The three registries a Bundle owns (_realSections, _intSections,
    _pairSections). -/
structure BundleModel where
  realSections : SectionReg
  intSections : SectionReg
  pairSections : SectionReg
  deriving DecidableEq, Repr

def hasRealSection (b : BundleModel) (name : String) : Bool :=
  hasSection b.realSections name

def getRealSection (b : BundleModel) (name : String) : Nat × BundleModel :=
  let r := getSection b.realSections name
  (r.1, { b with realSections := r.2 })

def hasIntSection (b : BundleModel) (name : String) : Bool :=
  hasSection b.intSections name

def getIntSection (b : BundleModel) (name : String) : Nat × BundleModel :=
  let r := getSection b.intSections name
  (r.1, { b with intSections := r.2 })

def hasPairSection (b : BundleModel) (name : String) : Bool :=
  hasSection b.pairSections name

def getPairSection (b : BundleModel) (name : String) : Nat × BundleModel :=
  let r := getSection b.pairSections name
  (r.1, { b with pairSections := r.2 })

/-! ### PCICE boundary values (Mesh.hh lines 169-171, 335-366) -/

/-- bc_value_type: struct {double rho, u, v, p;}. -/
structure BCValue where
  rho : ℚ
  u : ℚ
  v : ℚ
  p : ℚ
  deriving DecidableEq, Repr

/-- The value-initialized record std::map::operator[] creates for a missing
    key (all four doubles zero). -/
def bcZero : BCValue := ⟨0, 0, 0, 0⟩

/-- bc_values_type: std::map<int, bc_value_type>, modelled as its key-sorted
    entry list (which is exactly std::map's iteration order). -/
abbrev BCTable := List (Int × BCValue)

/-- std::map::find / operator[] read. -/
def bcLookup (k : Int) : BCTable → Option BCValue
  | [] => none
  | (k1, v1) :: rest => if k1 = k then some v1 else bcLookup k rest

/-- std::map keyed insertion: overwrite an existing key, otherwise insert at
    the sorted position. -/
def bcInsert (k : Int) (v : BCValue) : BCTable → BCTable
  | [] => [(k, v)]
  | (k1, v1) :: rest =>
    if k < k1 then (k, v) :: (k1, v1) :: rest
    else if k = k1 then (k, v) :: rest
    else (k1, v1) :: bcInsert k v rest

/-- A table's keys are strictly increasing (the std::map invariant). -/
def bcSorted (t : BCTable) : Prop :=
  t.Pairwise (fun a b => a.1 < b.1)

/-- Mesh::getBCValue (lines 336-338): return this->_bcValues[bcFunc].
    std::map::operator[] inserts a value-initialized record when the key is
    missing, so the read returns the stored state and the possibly-grown
    table. -/
def getBCValue (k : Int) (t : BCTable) : BCValue × BCTable :=
  match bcLookup k t with
  | some v => (v, t)
  | none => (bcZero, bcInsert k bcZero t)

/-- Mesh::setBCValue (lines 339-341). -/
def setBCValue (k : Int) (v : BCValue) (t : BCTable) : BCTable :=
  bcInsert k v t

/-- The broadcast stream the root (rank 0) branch of distributeBCValues sends
    (lines 358-365): the entries of its table in iteration order, each as a
    function id plus a 4-double record. -/
def bcBroadcastStream (root : BCTable) : List (Int × BCValue) := root

/-- The root branch of Mesh::distributeBCValues only sends; its own table is
    unchanged. -/
def distributeBCValuesRoot (root : BCTable) : BCTable := root

/-- The non-root branch of Mesh::distributeBCValues (lines 349-357): receive
    the root's table size, then size entries in the root's iteration order,
    and insert each received (funcNum, funcVal) into the local table (which is
    not cleared first).  MPI_Bcast is modelled as exact delivery of the root's
    buffer. -/
def distributeBCValuesNonRoot (root nonRoot : BCTable) : BCTable :=
  (bcBroadcastStream root).foldl (fun t kv => bcInsert kv.1 kv.2 t) nonRoot

/-! ### Field setup (Mesh::setupField, lines 375-401) -/

/-- The pieces of a real Section's state that Mesh::setupField touches.
    Modelled from the spec: a Section stores per point a signed fiber
    dimension (negative marks a constrained slot) and, for constrained points,
    a boundary scalar written by updateBC; allocate fixes backing storage. -/
structure RSec where
  fib : Int → Option Int
  bcVal : Int → Option ℚ
  allocated : Bool

/-- Modelled from the spec: Section::setFiberDimensionByDepth assigns the same
    dimension to every point at a given stratification depth. -/
def setFiberDimensionByDepth (depth : Int → Nat) (d : Nat) (n : Int) (s : RSec) : RSec :=
  { s with fib := fun q => if depth q = d then some n else s.fib q }

/-- Modelled from the spec: Section::setFiberDimension overrides the fiber
    dimension of one point. -/
def setFiberDimension (q0 : Int) (n : Int) (s : RSec) : RSec :=
  { s with fib := fun q => if q = q0 then some n else s.fib q }

/-- Modelled from the spec: Section::allocate fixes backing storage; it does
    not change fiber dimensions or boundary values. -/
def allocateSec (s : RSec) : RSec := { s with allocated := true }

/-- Modelled from the spec: Section::updateBC overwrites the boundary scalar
    of a constrained point. -/
def updateBC (q0 : Int) (x : ℚ) (s : RSec) : RSec :=
  { s with bcVal := fun q => if q = q0 then some x else s.bcVal q }

/-- The state Mesh::setupField reads: the spatial dimension _dim, the
    topology's depth of each point, the Discretization's dof count per
    dimension, the BoundaryCondition's label name, the points of
    getLabelStratum(0, labelName, 1) in iteration order, the "coordinates"
    restriction of each point, and the BoundaryCondition functional. -/
structure FieldMesh where
  dim : Nat
  depth : Int → Nat
  numDof : Nat → Int
  labelName : String
  labelStratum : List Int
  coordsAt : Int → List ℚ
  bcEvaluate : List ℚ → ℚ

/-- The first phase of Mesh::setupField (lines 379-381): for each d with
    0 <= d < _dim, setFiberDimensionByDepth(0, d, getNumDof(d)). -/
def setupFieldBulk (m : FieldMesh) (s : RSec) : RSec :=
  (List.range m.dim).foldl
    (fun t d => setFiberDimensionByDepth m.depth d (m.numDof d) t) s

/-- The second phase of Mesh::setupField (lines 382-388): when the boundary
    label name is non-empty, override the fiber dimension of every point of
    the label stratum to minus the dof count of that point's depth. -/
def setupFieldOverride (m : FieldMesh) (s : RSec) : RSec :=
  if m.labelName = "" then s
  else m.labelStratum.foldl
    (fun t q => setFiberDimension q (-(m.numDof (m.depth q))) t) s

/-- The last phase of Mesh::setupField (lines 390-400): when the boundary
    label name is non-empty, updateBC every label stratum point with the
    BoundaryCondition functional applied to that point's "coordinates"
    restriction. -/
def setupFieldBCWrite (m : FieldMesh) (s : RSec) : RSec :=
  if m.labelName = "" then s
  else m.labelStratum.foldl
    (fun t q => updateBC q (m.bcEvaluate (m.coordsAt q)) t) s

/-- Mesh::setupField (lines 375-401): the bulk dof loop, then the constrained
    override, then allocate, then the boundary value writes. -/
def setupField (m : FieldMesh) (s : RSec) : RSec :=
  setupFieldBCWrite m (allocateSec (setupFieldOverride m (setupFieldBulk m s)))

/-- A fresh, unallocated real section: no point has been assigned a fiber
    dimension or a boundary value. -/
def emptySec : RSec := ⟨fun _ => none, fun _ => none, false⟩

/-- A concrete mesh state for the counterexample to the inclusive dof-loop
    bound: spatial dimension 2, point 10 at depth 2 (a cell), one dof
    prescribed per dimension d as d + 1, and no boundary condition label. -/
def cellMesh : FieldMesh :=
  { dim := 2
    depth := fun q => if q = 10 then 2 else 0
    numDof := fun d => (d : Int) + 1
    labelName := ""
    labelStratum := []
    coordsAt := fun _ => []
    bcEvaluate := fun _ => 0 }

/-- A concrete mesh state with a boundary condition: label "boundary" marking
    point 5 (a depth-0 vertex at coordinate 2), one dof on vertices, and the
    functional coords[0] + 1. -/
def boundaryMesh : FieldMesh :=
  { dim := 2
    depth := fun _ => 0
    numDof := fun d => (d : Int) + 1
    labelName := "boundary"
    labelStratum := [5]
    coordsAt := fun _ => [2]
    bcEvaluate := fun l => cAt l 0 + 1 }

/-! ## Helper lemmas: point location loops -/

/-- The 2D cell loop returns the first cell passing the acceptance test, and
    throws when none does. -/
theorem locateLoop2D_eq_find (m : LocMesh) (pt : List ℚ) (l : List Int) :
    locateLoop2D m pt l =
      match l.find? (fun c => decide (inRefTriangle (m.coords c) pt)) with
      | some c => .ok c
      | none => .error .pointOutsideDomain := by
  induction l with
  | nil => rfl
  | cons c cs ih =>
    simp only [locateLoop2D, List.find?]
    by_cases h : inRefTriangle (m.coords c) pt
    · simp [h]
    · simp [h, ih]

/-- The 3D cell loop returns the first cell passing the acceptance test, and
    throws when none does. -/
theorem locateLoop3D_eq_find (m : LocMesh) (pt : List ℚ) (l : List Int) :
    locateLoop3D m pt l =
      match l.find? (fun c => decide (inRefTetrahedron (m.coords c) pt)) with
      | some c => .ok c
      | none => .error .pointOutsideDomain := by
  induction l with
  | nil => rfl
  | cons c cs ih =>
    simp only [locateLoop3D, List.find?]
    by_cases h : inRefTetrahedron (m.coords c) pt
    · simp [h]
    · simp [h, ih]

/-! ## Claim theorems: geometry and point location -/

/-- Claim C2: for a mesh of dimension 2 or 3, locatePoint scans the height-0
    cells in order and returns the first cell whose reference coordinates
    (from that cell's inverse Jacobian and origin vertex) are all non-negative
    and sum to at most 1; when no cell qualifies it raises the
    point-outside-domain error instead of returning. -/
theorem locatePoint_first_containing_cell (m : LocMesh) (pt : List ℚ) :
    (m.dim = 2 → locatePoint m pt =
      match m.cells.find? (fun c => decide (inRefTriangle (m.coords c) pt)) with
      | some c => .ok c
      | none => .error .pointOutsideDomain) ∧
    (m.dim = 3 → locatePoint m pt =
      match m.cells.find? (fun c => decide (inRefTetrahedron (m.coords c) pt)) with
      | some c => .ok c
      | none => .error .pointOutsideDomain) := by
  constructor
  · intro h
    simp [locatePoint, h, locatePoint_2D, locateLoop2D_eq_find]
  · intro h
    simp [locatePoint, h, locatePoint_3D, locateLoop3D_eq_find]

/-- Witness for C2 at the unit-triangle mesh with query point (1/4, 1/4). -/
theorem locatePoint_first_containing_cell_witness :
    locatePoint unitTriangleMesh [1/4, 1/4] =
      match unitTriangleMesh.cells.find?
          (fun c => decide (inRefTriangle (unitTriangleMesh.coords c) [1/4, 1/4])) with
      | some c => .ok c
      | none => .error .pointOutsideDomain :=
  (locatePoint_first_containing_cell unitTriangleMesh [1/4, 1/4]).1 rfl

/-- Claim C5 counterexample: on the unit right triangle (0,0), (1,0), (0,1),
    computeTriangleGeometry yields detJ = 1/4, not the claimed 1.0 (the
    half-scaled Jacobian of the unit edge vectors has determinant 1/4). -/
theorem unitTriangle_detJ_ne_one :
    (computeTriangleGeometry [0, 0, 1, 0, 0, 1]).2.2.2 ≠ 1 := by
  norm_num [computeTriangleGeometry, triDetJ, triJ, cAt]

/-- Claim C5 (amended): on the unit right triangle (0,0), (1,0), (0,1) stored
    in arrow order, computeTriangleGeometry produces detJ = 1/4. -/
theorem unitTriangle_detJ_quarter :
    (computeTriangleGeometry [0, 0, 1, 0, 0, 1]).2.2.2 = 1/4 := by
  norm_num [computeTriangleGeometry, triDetJ, triJ, cAt]

/-- Claim C6: on the single unit-right-triangle mesh, locatePoint returns the
    triangle cell for the query point (1/4, 1/4) and raises the
    point-outside-domain error for the query point (2, 2). -/
theorem unitTriangle_locatePoint :
    locatePoint unitTriangleMesh [1/4, 1/4] = .ok 42 ∧
    locatePoint unitTriangleMesh [2, 2] = .error .pointOutsideDomain := by
  constructor
  · simp only [locatePoint, unitTriangleMesh, locatePoint_2D, locateLoop2D]
    norm_num [inRefTriangle, triXi, triEta, triInvJ, triInvDet, triDetJ, triJ, cAt]
  · simp only [locatePoint, unitTriangleMesh, locatePoint_2D, locateLoop2D]
    norm_num [inRefTriangle, triXi, triEta, triInvJ, triInvDet, triDetJ, triJ, cAt]

/-- Claim C7: for a mesh whose dimension is neither 2 nor 3,
    computeElementGeometry raises the unsupported-dimension error on every
    cell and locatePoint raises its unsupported-dimension error on every
    query point; neither returns a result. -/
theorem geometry_unsupported_dimension (m : LocMesh)
    (h2 : m.dim ≠ 2) (h3 : m.dim ≠ 3) :
    (∀ e, computeElementGeometry m e = .error .unsupportedGeometryDimension) ∧
    (∀ pt, locatePoint m pt = .error .unsupportedLocationDimension) := by
  constructor
  · intro e
    simp [computeElementGeometry, h2, h3]
  · intro pt
    simp [locatePoint, h2, h3]

/-- Witness for C7 at a 4-dimensional mesh. -/
theorem geometry_unsupported_dimension_witness :
    computeElementGeometry ⟨4, [], fun _ => []⟩ 0 = .error .unsupportedGeometryDimension ∧
    locatePoint ⟨4, [], fun _ => []⟩ [] = .error .unsupportedLocationDimension :=
  ⟨(geometry_unsupported_dimension ⟨4, [], fun _ => []⟩ (by decide) (by decide)).1 0,
   (geometry_unsupported_dimension ⟨4, [], fun _ => []⟩ (by decide) (by decide)).2 []⟩

/-- Claim C10: both element geometry routines compute invDet = 1/detJ with no
    zero check.  The 2x2 inversion is exact precisely when detJ is nonzero:
    invJ * J is the identity iff detJ is not 0.  For the 3x3 routine, invDet
    is the true reciprocal exactly when detJ is nonzero, while a degenerate
    cell (detJ = 0) produces no error and only a zeroed, unusable invJ. -/
theorem jacobianInversion_requires_detJ_ne_zero (c : List ℚ) :
    ((triInvJ c 0 * triJ c 0 0 + triInvJ c 1 * triJ c 1 0 = 1 ∧
      triInvJ c 0 * triJ c 0 1 + triInvJ c 1 * triJ c 1 1 = 0 ∧
      triInvJ c 2 * triJ c 0 0 + triInvJ c 3 * triJ c 1 0 = 0 ∧
      triInvJ c 2 * triJ c 0 1 + triInvJ c 3 * triJ c 1 1 = 1) ↔ triDetJ c ≠ 0) ∧
    (triDetJ c = 0 →
      triInvDet c = 0 ∧ triInvJ c 0 = 0 ∧ triInvJ c 1 = 0 ∧
      triInvJ c 2 = 0 ∧ triInvJ c 3 = 0) ∧
    (tetDetJ c ≠ 0 → tetDetJ c * tetInvDet c = 1) ∧
    (tetDetJ c = 0 → tetInvDet c = 0 ∧ ∀ i, tetInvJ c i = 0) := by
  refine ⟨⟨?_, ?_⟩, ?_, ?_, ?_⟩
  · rintro ⟨e1, -⟩ hd
    have hiD : triInvDet c = 0 := by simp [triInvDet, hd]
    rw [show triInvJ c 0 = triInvDet c * triJ c 1 1 from rfl,
        show triInvJ c 1 = -(triInvDet c * triJ c 0 1) from rfl, hiD] at e1
    norm_num at e1
  · intro hd
    have hdd : triJ c 0 0 * triJ c 1 1 - triJ c 0 1 * triJ c 1 0 ≠ 0 := hd
    refine ⟨?_, ?_, ?_, ?_⟩ <;>
      · simp only [triInvJ, triInvDet, triDetJ]
        field_simp
        ring
  · intro hd
    have hiD : triInvDet c = 0 := by simp [triInvDet, hd]
    simp [triInvJ, hiD]
  · intro hd
    rw [tetInvDet]
    field_simp
  · intro hd
    have hiD : tetInvDet c = 0 := by simp [tetInvDet, hd]
    refine ⟨hiD, fun i => ?_⟩
    rcases i with _|_|_|_|_|_|_|_|_|i <;> simp [tetInvJ, hiD]

/-- Witness for C10 at the degenerate (all-zero) coordinate list, whose tet
    determinant vanishes. -/
theorem jacobianInversion_requires_detJ_ne_zero_witness :
    tetInvDet [] = 0 ∧ ∀ i, tetInvJ [] i = 0 :=
  (jacobianInversion_requires_detJ_ne_zero []).2.2.2
    (by norm_num [tetDetJ, tetJ, cAt])

/-! ## Helper lemmas: section registries -/

/-- One registry's get-or-create is idempotent: after a get, the name is
    present and a second get returns the same section and registry. -/
theorem getSection_get_or_create (reg : SectionReg) (name : String) :
    hasSection (getSection reg name).2 name = true ∧
    getSection (getSection reg name).2 name = getSection reg name := by
  unfold getSection hasSection
  cases h : regLookup name reg.entries with
  | some i => simp [h]
  | none => simp [regLookup, h]

/-! ## Claim theorems: section registries -/

/-- Claim C8: each of the three section registries is get-or-create and
    idempotent: after getRealSection(name) (likewise getIntSection,
    getPairSection) the name tests present, and a second call with the same
    name returns the same section and leaves the whole registry state
    unchanged. -/
theorem sectionRegistries_get_or_create (b : BundleModel) (name : String) :
    (hasRealSection (getRealSection b name).2 name = true ∧
     getRealSection (getRealSection b name).2 name = getRealSection b name) ∧
    (hasIntSection (getIntSection b name).2 name = true ∧
     getIntSection (getIntSection b name).2 name = getIntSection b name) ∧
    (hasPairSection (getPairSection b name).2 name = true ∧
     getPairSection (getPairSection b name).2 name = getPairSection b name) := by
  have hr := getSection_get_or_create b.realSections name
  have hi := getSection_get_or_create b.intSections name
  have hp := getSection_get_or_create b.pairSections name
  refine ⟨⟨?_, ?_⟩, ⟨?_, ?_⟩, ⟨?_, ?_⟩⟩ <;>
    simp [hasRealSection, getRealSection, hasIntSection, getIntSection,
          hasPairSection, getPairSection, hr.1, hi.1, hp.1, hr.2, hi.2, hp.2]

/-! ## Helper lemmas: boundary-value tables -/

/-- Looking up the key just inserted finds the inserted value. -/
theorem bcLookup_bcInsert_self (k : Int) (v : BCValue) (t : BCTable) :
    bcLookup k (bcInsert k v t) = some v := by
  induction t with
  | nil => simp [bcInsert, bcLookup]
  | cons hd tl ih =>
    obtain ⟨k1, v1⟩ := hd
    by_cases h1 : k < k1
    · simp [bcInsert, h1, bcLookup]
    · by_cases h2 : k = k1
      · simp [bcInsert, h1, h2, bcLookup]
      · simp [bcInsert, h1, h2, bcLookup, ih, Ne.symm h2]

/-- Inserting one key leaves the lookup of every other key unchanged. -/
theorem bcLookup_bcInsert_ne (j k : Int) (v : BCValue) (t : BCTable)
    (h : j ≠ k) : bcLookup j (bcInsert k v t) = bcLookup j t := by
  induction t with
  | nil => simp [bcInsert, bcLookup, Ne.symm h]
  | cons hd tl ih =>
    obtain ⟨k1, v1⟩ := hd
    by_cases h1 : k < k1
    · simp [bcInsert, h1, bcLookup, Ne.symm h]
    · by_cases h2 : k = k1
      · subst h2
        simp [bcInsert, h1, bcLookup, Ne.symm h]
      · simp [bcInsert, h1, h2, bcLookup, ih]

/-- Inserting a key missing from the table grows it by exactly one entry. -/
theorem bcInsert_length (k : Int) (v : BCValue) (t : BCTable)
    (h : bcLookup k t = none) : (bcInsert k v t).length = t.length + 1 := by
  induction t with
  | nil => rfl
  | cons hd tl ih =>
    obtain ⟨k1, v1⟩ := hd
    rw [bcLookup] at h
    by_cases h2 : k1 = k
    · simp [h2] at h
    · simp only [h2, if_false] at h
      have h3 : ¬ k = k1 := fun e => h2 e.symm
      by_cases h1 : k < k1
      · simp [bcInsert, h1]
      · simp [bcInsert, h1, h3, ih h]

/-- The inserted entry is a member of the resulting table. -/
theorem bcInsert_mem_self (k : Int) (v : BCValue) (t : BCTable) :
    (k, v) ∈ bcInsert k v t := by
  induction t with
  | nil => simp [bcInsert]
  | cons hd tl ih =>
    obtain ⟨k1, v1⟩ := hd
    by_cases h1 : k < k1
    · simp [bcInsert, h1]
    · by_cases h2 : k = k1
      · simp [bcInsert, h1, h2]
      · simp [bcInsert, h1, h2, ih]

/-- Folding insertions whose keys avoid k leaves the lookup of k unchanged. -/
theorem bcLookup_fold_not_mem (r : BCTable) (t : BCTable) (k : Int)
    (h : k ∉ r.map Prod.fst) :
    bcLookup k (r.foldl (fun a kv => bcInsert kv.1 kv.2 a) t) = bcLookup k t := by
  induction r generalizing t with
  | nil => rfl
  | cons hd tl ih =>
    simp only [List.map_cons, List.mem_cons, not_or] at h
    rw [List.foldl_cons, ih _ h.2, bcLookup_bcInsert_ne _ _ _ _ h.1]

/-- Folding the insertions of a sorted table makes each of its entries the
    final binding of its key. -/
theorem bcLookup_fold_mem (r : BCTable) (hs : bcSorted r) (t : BCTable)
    (k : Int) (v : BCValue) (hm : (k, v) ∈ r) :
    bcLookup k (r.foldl (fun a kv => bcInsert kv.1 kv.2 a) t) = some v := by
  induction r generalizing t with
  | nil => cases hm
  | cons hd tl ih =>
    unfold bcSorted at hs
    rw [List.pairwise_cons] at hs
    rw [List.foldl_cons]
    rcases List.mem_cons.mp hm with he | hm2
    · cases he.symm
      have hk : k ∉ tl.map Prod.fst := by
        intro hmem
        rcases List.mem_map.mp hmem with ⟨b, hb, hbe⟩
        exact absurd (hbe ▸ hs.1 b hb) (lt_irrefl k)
      rw [bcLookup_fold_not_mem tl _ k hk, bcLookup_bcInsert_self]
    · exact ih hs.2 _ hm2

/-- Inserting a key larger than every key of the table appends the entry. -/
theorem bcInsert_append (k : Int) (v : BCValue) (t : BCTable)
    (h : ∀ a ∈ t, a.1 < k) : bcInsert k v t = t ++ [(k, v)] := by
  induction t with
  | nil => rfl
  | cons hd tl ih =>
    obtain ⟨k1, v1⟩ := hd
    have hk : k1 < k := h (k1, v1) (List.mem_cons_self _ _)
    rw [bcInsert, if_neg (not_lt.mpr hk.le), if_neg (ne_of_gt hk),
        ih (fun a ha => h a (List.mem_cons_of_mem _ ha))]
    rfl

/-- Folding the insertions of a sorted table whose keys all exceed the keys of
    the accumulator appends the table. -/
theorem bcFold_append (r : BCTable) (hs : bcSorted r) (t : BCTable)
    (h : ∀ a ∈ t, ∀ b ∈ r, a.1 < b.1) :
    r.foldl (fun a kv => bcInsert kv.1 kv.2 a) t = t ++ r := by
  induction r generalizing t with
  | nil => simp
  | cons hd tl ih =>
    unfold bcSorted at hs
    rw [List.pairwise_cons] at hs
    rw [List.foldl_cons,
        bcInsert_append hd.1 hd.2 t (fun a ha => h a ha hd (List.mem_cons_self _ _))]
    rw [ih hs.2 _ ?_]
    · simp
    · intro a ha b hb
      rcases List.mem_append.mp ha with h1 | h2
      · exact h a h1 b (List.mem_cons_of_mem _ hb)
      · have : a = (hd.1, hd.2) := by simpa using h2
        rw [this]
        exact hs.1 b hb

/-! ## Claim theorems: boundary-value tables -/

/-- Claim C9: reading getBCValue(id) for an id missing from the table does not
    raise an error: it returns the value-initialized all-zero record, inserts
    that record under the id (growing the table by one entry), and the new
    entry is part of the stream a subsequent distributeBCValues broadcasts
    from the root. -/
theorem getBCValue_missing_inserts_default (k : Int) (t : BCTable)
    (h : bcLookup k t = none) :
    (getBCValue k t).1 = bcZero ∧
    (getBCValue k t).2 = bcInsert k bcZero t ∧
    ((getBCValue k t).2).length = t.length + 1 ∧
    bcLookup k (getBCValue k t).2 = some bcZero ∧
    (k, bcZero) ∈ bcBroadcastStream (getBCValue k t).2 := by
  have he : getBCValue k t = (bcZero, bcInsert k bcZero t) := by
    simp [getBCValue, h]
  rw [he]
  exact ⟨rfl, rfl, bcInsert_length k bcZero t h,
    bcLookup_bcInsert_self k bcZero t, bcInsert_mem_self k bcZero t⟩

/-- Witness for C9: reading function id 7 from the empty table. -/
theorem getBCValue_missing_inserts_default_witness :
    (getBCValue 7 []).1 = bcZero ∧
    (getBCValue 7 []).2 = bcInsert 7 bcZero [] ∧
    ((getBCValue 7 []).2).length = ([] : BCTable).length + 1 ∧
    bcLookup 7 (getBCValue 7 []).2 = some bcZero ∧
    (7, bcZero) ∈ bcBroadcastStream (getBCValue 7 []).2 :=
  getBCValue_missing_inserts_default 7 [] rfl

/-- Claim C3 counterexample: with an empty table on the root and a prior entry
    (function id 1) on the non-root process, the call leaves the non-root
    table with that entry, so it does not equal the root's (empty) table. -/
theorem distributeBCValues_prior_entry_persists :
    distributeBCValuesNonRoot [] [(1, bcZero)] ≠ distributeBCValuesRoot [] := by
  simp [distributeBCValuesNonRoot, distributeBCValuesRoot, bcBroadcastStream]

/-- Claim C3 (amended): on a 2-process run distributeBCValues overwrites the
    non-root table entry-by-entry with the root's table instead of replacing
    it: the root's own table is unchanged, an empty root table makes the call
    the identity on every process, a previously empty non-root table ends up
    equal to the root's table, every root entry is the final binding of its
    id on the non-root process, and prior non-root entries whose ids the root
    lacks persist. -/
theorem distributeBCValues_overwrites_from_root (root nonRoot : BCTable) :
    (distributeBCValuesRoot root = root) ∧
    (root = [] → distributeBCValuesNonRoot root nonRoot = nonRoot) ∧
    (bcSorted root → distributeBCValuesNonRoot root [] = root) ∧
    (bcSorted root → ∀ k v, (k, v) ∈ root →
      bcLookup k (distributeBCValuesNonRoot root nonRoot) = some v) ∧
    (∀ k, k ∉ root.map Prod.fst →
      bcLookup k (distributeBCValuesNonRoot root nonRoot) = bcLookup k nonRoot) := by
  refine ⟨rfl, ?_, ?_, ?_, ?_⟩
  · rintro rfl
    rfl
  · intro hs
    simpa [distributeBCValuesNonRoot, bcBroadcastStream] using
      bcFold_append root hs [] (by simp)
  · intro hs k v hm
    exact bcLookup_fold_mem root hs nonRoot k v hm
  · intro k hk
    exact bcLookup_fold_not_mem root nonRoot k hk

/-- Witness for C3 (amended): root table [(1, 0-record)], prior non-root table
    [(3, 0-record)]; after the call id 1 is bound to the root's record. -/
theorem distributeBCValues_overwrites_from_root_witness :
    bcLookup 1 (distributeBCValuesNonRoot [(1, bcZero)] [(3, bcZero)]) = some bcZero :=
  (distributeBCValues_overwrites_from_root [(1, bcZero)] [(3, bcZero)]).2.2.2.1
    (by simp [bcSorted]) 1 bcZero (by simp)

/-! ## Helper lemmas: field setup -/

/-- Folding per-point fiber-dimension overrides assigns each listed point its
    own override and leaves other points alone. -/
theorem fold_setFiberDimension_fib (l : List Int) (g : Int → Int) (s : RSec)
    (p : Int) :
    (l.foldl (fun t q => setFiberDimension q (g q) t) s).fib p =
      if p ∈ l then some (g p) else s.fib p := by
  induction l generalizing s with
  | nil => simp
  | cons q l ih =>
    rw [List.foldl_cons, ih]
    by_cases hm : p ∈ l
    · simp [hm]
    · by_cases he : p = q
      · simp [hm, he, setFiberDimension]
      · simp [hm, he, setFiberDimension]

/-- Per-point fiber-dimension overrides do not touch boundary values. -/
theorem fold_setFiberDimension_bcVal (l : List Int) (g : Int → Int) (s : RSec) :
    (l.foldl (fun t q => setFiberDimension q (g q) t) s).bcVal = s.bcVal := by
  induction l generalizing s with
  | nil => rfl
  | cons q l ih =>
    rw [List.foldl_cons, ih]
    rfl

/-- Folding updateBC writes assigns each listed point its own value and leaves
    other points alone. -/
theorem fold_updateBC_bcVal (l : List Int) (g : Int → ℚ) (s : RSec) (p : Int) :
    (l.foldl (fun t q => updateBC q (g q) t) s).bcVal p =
      if p ∈ l then some (g p) else s.bcVal p := by
  induction l generalizing s with
  | nil => simp
  | cons q l ih =>
    rw [List.foldl_cons, ih]
    by_cases hm : p ∈ l
    · simp [hm]
    · by_cases he : p = q
      · simp [hm, he, updateBC]
      · simp [hm, he, updateBC]

/-- updateBC writes do not touch fiber dimensions. -/
theorem fold_updateBC_fib (l : List Int) (g : Int → ℚ) (s : RSec) :
    (l.foldl (fun t q => updateBC q (g q) t) s).fib = s.fib := by
  induction l generalizing s with
  | nil => rfl
  | cons q l ih =>
    rw [List.foldl_cons, ih]
    rfl

/-- The bulk phase assigns every point whose depth is below the loop bound
    _dim the dof count of its depth, and leaves deeper points untouched. -/
theorem setupFieldBulk_fib (m : FieldMesh) (s : RSec) (p : Int) :
    (setupFieldBulk m s).fib p =
      if m.depth p < m.dim then some (m.numDof (m.depth p)) else s.fib p := by
  unfold setupFieldBulk
  suffices h : ∀ n, ((List.range n).foldl
      (fun t d => setFiberDimensionByDepth m.depth d (m.numDof d) t) s).fib p =
      if m.depth p < n then some (m.numDof (m.depth p)) else s.fib p from h m.dim
  intro n
  induction n with
  | zero => simp
  | succ n ih =>
    rw [List.range_succ, List.foldl_append, List.foldl_cons, List.foldl_nil]
    have hstep : ∀ t : RSec,
        (setFiberDimensionByDepth m.depth n (m.numDof n) t).fib p =
          if m.depth p = n then some (m.numDof n) else t.fib p := fun t => rfl
    rw [hstep]
    by_cases hd : m.depth p = n
    · simp [hd, Nat.lt_succ_self]
    · rw [if_neg hd, ih]
      by_cases hlt : m.depth p < n
      · simp [hlt, Nat.lt_succ_of_lt hlt]
      · have h2 : ¬ m.depth p < n + 1 := by omega
        simp [hlt, h2]

/-- The override phase sets a stratum point's fiber dimension to minus its
    depth's dof count (when a boundary label is present). -/
theorem setupFieldOverride_fib_mem (m : FieldMesh) (s : RSec) (p : Int)
    (hn : ¬ m.labelName = "") (hp : p ∈ m.labelStratum) :
    (setupFieldOverride m s).fib p = some (-(m.numDof (m.depth p))) := by
  unfold setupFieldOverride
  rw [if_neg hn, fold_setFiberDimension_fib, if_pos hp]

/-- The override phase leaves a point alone when the label is empty or the
    point is outside the stratum. -/
theorem setupFieldOverride_fib_not_mem (m : FieldMesh) (s : RSec) (p : Int)
    (h : m.labelName = "" ∨ p ∉ m.labelStratum) :
    (setupFieldOverride m s).fib p = s.fib p := by
  unfold setupFieldOverride
  rcases h with h | h
  · rw [if_pos h]
  · split
    · rfl
    · rw [fold_setFiberDimension_fib, if_neg h]

/-- The override phase does not touch boundary values. -/
theorem setupFieldOverride_bcVal (m : FieldMesh) (s : RSec) :
    (setupFieldOverride m s).bcVal = s.bcVal := by
  unfold setupFieldOverride
  split
  · rfl
  · rw [fold_setFiberDimension_bcVal]

/-- The boundary-write phase does not touch fiber dimensions. -/
theorem setupFieldBCWrite_fib (m : FieldMesh) (s : RSec) :
    (setupFieldBCWrite m s).fib = s.fib := by
  unfold setupFieldBCWrite
  split
  · rfl
  · rw [fold_updateBC_fib]

/-- The boundary-write phase records, at each stratum point, the functional
    applied to that point's coordinates (when a boundary label is present). -/
theorem setupFieldBCWrite_bcVal_mem (m : FieldMesh) (s : RSec) (p : Int)
    (hn : ¬ m.labelName = "") (hp : p ∈ m.labelStratum) :
    (setupFieldBCWrite m s).bcVal p = some (m.bcEvaluate (m.coordsAt p)) := by
  unfold setupFieldBCWrite
  rw [if_neg hn, fold_updateBC_bcVal, if_pos hp]

/-! ## Claim theorems: field setup -/

/-- Claim C1 counterexample: in the mesh cellMesh of dimension meshDim = 2
    whose point 10 has depth 2, the claim instance d = meshDim demands fiber
    dimension getNumDof(2) at point 10, but setupField leaves that point
    unassigned: the source loop runs d < meshDim, excluding d = meshDim. -/
theorem setupField_skips_top_dimension :
    (setupField cellMesh emptySec).fib 10 ≠ some (cellMesh.numDof 2) := by
  decide

/-- Claim C1 (amended): for every mesh and every real section, setupField
    bulk-assigns, for each topological dimension d from 0 to meshDim - 1
    inclusive (the source loop stops below meshDim), the fiber dimension of
    every point at depth d to the Discretization's dof count getNumDof(d),
    via setFiberDimensionByDepth; stated for points not subsequently
    overridden as boundary points. -/
theorem setupField_bulk_assigns_below_dim (m : FieldMesh) (s : RSec)
    (d : Nat) (p : Int) (hd : d < m.dim) (hp : m.depth p = d)
    (hb : m.labelName = "" ∨ p ∉ m.labelStratum) :
    (setupField m s).fib p = some (m.numDof d) := by
  calc (setupField m s).fib p
      = (allocateSec (setupFieldOverride m (setupFieldBulk m s))).fib p :=
        congrFun (setupFieldBCWrite_fib m _) p
    _ = (setupFieldOverride m (setupFieldBulk m s)).fib p := rfl
    _ = (setupFieldBulk m s).fib p := setupFieldOverride_fib_not_mem m _ p hb
    _ = some (m.numDof d) := by rw [setupFieldBulk_fib, hp, if_pos hd]

/-- Witness for the amended C1: in cellMesh, the depth-0 point 0 receives
    getNumDof(0). -/
theorem setupField_bulk_assigns_below_dim_witness :
    (setupField cellMesh emptySec).fib 0 = some (cellMesh.numDof 0) :=
  setupField_bulk_assigns_below_dim cellMesh emptySec 0 0 (by decide) (by decide)
    (Or.inl rfl)

/-- Claim C4: when the BoundaryCondition's label name is non-empty, setupField
    overrides the fiber dimension of every label stratum point to minus the
    dof count at that point's depth and, after allocate, writes at each such
    point the BoundaryCondition functional evaluated on that point's
    "coordinates" restriction via updateBC; when the label name is empty the
    result is exactly the bulk assignment followed by allocate (no override,
    no updateBC). -/
theorem setupField_boundary_condition (m : FieldMesh) (s : RSec) :
    (¬ m.labelName = "" → ∀ p ∈ m.labelStratum,
      (setupField m s).fib p = some (-(m.numDof (m.depth p))) ∧
      (setupField m s).bcVal p = some (m.bcEvaluate (m.coordsAt p))) ∧
    (m.labelName = "" → setupField m s = allocateSec (setupFieldBulk m s)) := by
  constructor
  · intro hn p hp
    constructor
    · calc (setupField m s).fib p
          = (allocateSec (setupFieldOverride m (setupFieldBulk m s))).fib p :=
            congrFun (setupFieldBCWrite_fib m _) p
        _ = (setupFieldOverride m (setupFieldBulk m s)).fib p := rfl
        _ = some (-(m.numDof (m.depth p))) :=
            setupFieldOverride_fib_mem m _ p hn hp
    · exact setupFieldBCWrite_bcVal_mem m _ p hn hp
  · intro h
    unfold setupField setupFieldBCWrite setupFieldOverride
    rw [if_pos h, if_pos h]

/-- Witness for C4 at boundaryMesh: its stratum point 5 ends constrained with
    the functional's value at its coordinates. -/
theorem setupField_boundary_condition_witness :
    (setupField boundaryMesh emptySec).fib 5 =
      some (-(boundaryMesh.numDof (boundaryMesh.depth 5))) ∧
    (setupField boundaryMesh emptySec).bcVal 5 =
      some (boundaryMesh.bcEvaluate (boundaryMesh.coordsAt 5)) :=
  (setupField_boundary_condition boundaryMesh emptySec).1 (by decide) 5
    (by decide)

end MeshVerify
